import Mathlib

/-!
Verification development for the transcode-supervision core of the
Dreamcodec repository (`src/src-tauri/src/ffmpeg/mod.rs`).

The Rust source is shallowly embedded: pure functions become Lean
functions, `f64` time/percentage arithmetic is modelled exactly over `ℚ`,
the per-task mutable record becomes an explicit `TaskState`, and the
supervisor loop (`run_conversion_task`) together with the manager's
cancellation entry points become explicit state-transition functions.
-/

namespace Dreamcodec

/-- Contiguous-occurrence test on character lists. -/
def listContains (needle : List Char) : List Char → Bool
  | [] => needle.isEmpty
  | c :: cs => needle.isPrefixOf (c :: cs) || listContains needle cs

/-- Substring test, the embedding of Rust `str::contains` for plain
(non-regex) needles. -/
def strContains (hay needle : String) : Bool :=
  listContains needle.toList hay.toList

/-- Lower-casing, the embedding of Rust `str::to_lowercase` (all strings in
play are ASCII). -/
def strToLower (s : String) : String :=
  String.mk (s.toList.map Char.toLower)

/-- Numeric value of a run of decimal digit characters. -/
def digitsToNat (l : List Char) : Nat :=
  l.foldl (fun a c => 10 * a + (c.toNat - 48)) 0

/-- Greedy parse of a nonempty digit run (`\d+`), returning its value and
the remaining characters. -/
def parseNatPart (l : List Char) : Option (Nat × List Char) :=
  let p := l.span (fun c => c.isDigit)
  if p.1.isEmpty then none else some (digitsToNat p.1, p.2)

/-- Greedy parse of a nonempty digit run, also returning how many digits
were consumed (needed to scale a fractional part). -/
def parseNatLen (l : List Char) : Option (Nat × Nat × List Char) :=
  let p := l.span (fun c => c.isDigit)
  if p.1.isEmpty then none else some (digitsToNat p.1, p.1.length, p.2)

/-- Expect one specific character at the head of the remaining input. -/
def expectChar (c : Char) : List Char → Option (List Char)
  | [] => none
  | c2 :: r => if c2 = c then some r else none

/-- Parse the shape `(\d+):(\d+):(\d+\.\d+)` used by the source's
time/duration regexes, returning the raw captures: hours, minutes, the
integer and fractional second digits and the fractional digit count. -/
def parseHMS (l : List Char) : Option (Nat × Nat × Nat × Nat × Nat) := do
  let (h, r1) ← parseNatPart l
  let r2 ← expectChar ':' r1
  let (m, r3) ← parseNatPart r2
  let r4 ← expectChar ':' r3
  let (si, r5) ← parseNatPart r4
  let r6 ← expectChar '.' r5
  let (fr, len, _) ← parseNatLen r6
  pure (h, m, si, fr, len)

/-- Seconds value of the captured `h:m:s.frac` shape, the exact rational
counterpart of the source's `h * 3600.0 + m * 60.0 + s` over parsed
`f64` captures. -/
def hmsSeconds (h m si fr len : Nat) : ℚ :=
  (h : ℚ) * 3600 + (m : ℚ) * 60 + ((si : ℚ) + (fr : ℚ) / (10 : ℚ) ^ len)

/-- Leftmost-match scan: find the first occurrence of `pat` that is
followed by text accepted by `p`, as an unanchored regex
`pat<shape>` would. -/
def scanFor {α : Type} (pat : List Char) (p : List Char → Option α) :
    List Char → Option α
  | [] => if pat.isEmpty then p [] else none
  | c :: cs =>
    if pat.isPrefixOf (c :: cs) then
      match p (List.drop pat.length (c :: cs)) with
      | some a => some a
      | none => scanFor pat p cs
    else scanFor pat p cs

/-- Embedding of a regex `pre(\d+):(\d+):(\d+\.\d+)` applied to one line. -/
def scanTimeShape (pre : String) (line : String) :
    Option (Nat × Nat × Nat × Nat × Nat) :=
  scanFor pre.toList parseHMS line.toList

/-- Embedding of a regex `pre(\d+)` applied to one line. -/
def scanCounter (pre : String) (line : String) : Option Nat :=
  scanFor pre.toList (fun r => (parseNatPart r).map (fun x => x.1)) line.toList

/-- Which elapsed-time field a diagnostic line carries; mirrors the four
regexes of `run_conversion_task` (mod.rs lines 1107-1110).  The colon
shape holds its raw captures. -/
inductive TimeField : Type where
  | timeHMS (h m si fr len : Nat)
  | outTimeUs (n : Nat)
  | outTimeMs (n : Nat)
deriving DecidableEq

/-- Extraction of the elapsed-time field from one line, in the source's
branch order (mod.rs lines 1143-1153): `time=` colon format first, then
`out_time=`, then `out_time_us=`, then `out_time_ms=`. -/
def extractTimeField (line : String) : Option TimeField :=
  match scanTimeShape "time=" line with
  | some (h, m, si, fr, len) => some (.timeHMS h m si fr len)
  | none =>
    match scanTimeShape "out_time=" line with
    | some (h, m, si, fr, len) => some (.timeHMS h m si fr len)
    | none =>
      match scanCounter "out_time_us=" line with
      | some n => some (.outTimeUs n)
      | none => (scanCounter "out_time_ms=" line).map .outTimeMs

/-- Seconds value of an extracted elapsed-time field. The source converts
`out_time_us` by `us / 1_000_000.0` and `out_time_ms` by
`ms / 1_000_000.0` as well (mod.rs lines 1148 and 1150). -/
def timeFieldSeconds : TimeField → ℚ
  | .timeHMS h m si fr len => hmsSeconds h m si fr len
  | .outTimeUs n => (n : ℚ) / 1000000
  | .outTimeMs n => (n : ℚ) / 1000000

/-- The `parsed_time` value the source computes for one line. -/
def parsedTime (line : String) : Option ℚ :=
  (extractTimeField line).map timeFieldSeconds

/-- Embedding of the `Duration: (\d+):(\d+):(\d+\.\d+)` regex plus the
`h * 3600 + m * 60 + s` conversion (mod.rs lines 1130-1138). -/
def parseDurationLine (line : String) : Option ℚ :=
  (scanTimeShape "Duration: " line).map
    (fun t => hmsSeconds t.1 t.2.1 t.2.2.1 t.2.2.2.1 t.2.2.2.2)

/-- Format policy record, from `struct FormatInfo`. -/
structure FormatInfo : Type where
  container : String
  default_video_codec : String
  default_audio_codec : String
  supports_video : Bool
  supports_audio : Bool
deriving DecidableEq

/-- Embedding of `get_format_info` (mod.rs lines 338-446): case-insensitive
lookup with an MP4/H.264/AAC default for unknown extensions. The Rust
`match` on string literals is written as the equivalent chain of equality
tests. -/
def get_format_info (ext : String) : FormatInfo :=
  let e := strToLower ext
  if e = "mp4" then ⟨"mp4", "libx264", "aac", true, true⟩
  else if e = "mkv" then ⟨"matroska", "libx264", "aac", true, true⟩
  else if e = "avi" then ⟨"avi", "libx264", "mp3", true, true⟩
  else if e = "mov" then ⟨"mov", "libx264", "aac", true, true⟩
  else if e = "wmv" then ⟨"asf", "wmv2", "wmav2", true, true⟩
  else if e = "flv" then ⟨"flv", "libx264", "aac", true, true⟩
  else if e = "webm" then ⟨"webm", "libvpx-vp9", "libopus", true, true⟩
  else if e = "ogv" then ⟨"ogg", "libtheora", "libvorbis", true, true⟩
  else if e = "mp3" then ⟨"mp3", "", "libmp3lame", false, true⟩
  else if e = "wav" then ⟨"wav", "", "pcm_s16le", false, true⟩
  else if e = "aac" then ⟨"adts", "", "aac", false, true⟩
  else if e = "flac" then ⟨"flac", "", "flac", false, true⟩
  else if e = "m4a" then ⟨"ipod", "", "aac", false, true⟩
  else if e = "ogg" then ⟨"ogg", "", "libvorbis", false, true⟩
  else ⟨"mp4", "libx264", "aac", true, true⟩

/-- Professional preset record, from `struct AdobePreset`. -/
structure AdobePreset : Type where
  name : String
  description : String
  encoder : String
  encoder_options : List String
  pixel_format : String
deriving DecidableEq

/-- Embedding of `get_adobe_presets` (mod.rs lines 467-563), the full
static preset catalog. -/
def get_adobe_presets : List AdobePreset :=
  [ ⟨"prores_422", "Apple ProRes 422 (High Quality for Premiere Pro / Final Cut)",
      "prores_ks", ["-profile:v", "2"], "yuv422p10le"⟩,
    ⟨"prores_422_hq", "Apple ProRes 422 HQ (Highest Quality for Premiere Pro / Final Cut)",
      "prores_ks", ["-profile:v", "3"], "yuv422p10le"⟩,
    ⟨"prores_4444", "Apple ProRes 4444 (With Alpha Channel)",
      "prores_ks", ["-profile:v", "4", "-alpha_bits", "16"], "yuva444p10le"⟩,
    ⟨"prores_proxy", "Apple ProRes Proxy (Lightweight Editing)",
      "prores_ks", ["-profile:v", "0"], "yuv422p"⟩,
    ⟨"dnxhd_1080p_220", "DNxHD 220 Mbps 1080p (Broadcast Quality)",
      "dnxhd", ["-b:v", "220M"], "yuv422p"⟩,
    ⟨"dnxhd_1080p_145", "DNxHD 145 Mbps 1080p (High Quality)",
      "dnxhd", ["-b:v", "145M"], "yuv422p"⟩,
    ⟨"dnxhr_hq", "DNxHR HQ (High Quality for 4K/UHD)",
      "dnxhd", ["-profile:v", "dnxhr_hq"], "yuv422p"⟩,
    ⟨"dnxhr_sq", "DNxHR SQ (Standard Quality)",
      "dnxhd", ["-profile:v", "dnxhr_sq"], "yuv422p"⟩,
    ⟨"dnxhr_lb", "DNxHR LB (Low Bandwidth / Proxy)",
      "dnxhd", ["-profile:v", "dnxhr_lb"], "yuv422p"⟩,
    ⟨"cineform_high", "GoPro CineForm High (After Effects Compatible)",
      "cfhd", ["-quality", "film3+"], "yuv422p10le"⟩,
    ⟨"cineform_medium", "GoPro CineForm Medium",
      "cfhd", ["-quality", "film3"], "yuv422p"⟩,
    ⟨"cineform_low", "GoPro CineForm Low (Proxy)",
      "cfhd", ["-quality", "film2"], "yuv422p"⟩ ]

/-- Embedding of `translate_nvenc_preset` (mod.rs lines 821-838). The Rust
`match` with alternative patterns is written as the equivalent chain of
equality tests, in the same order. -/
def translate_nvenc_preset (cpu_preset : String) : String :=
  if cpu_preset = "ultrafast" ∨ cpu_preset = "superfast" ∨
     cpu_preset = "veryfast" ∨ cpu_preset = "faster" then "fast"
  else if cpu_preset = "fast" ∨ cpu_preset = "medium" then "medium"
  else if cpu_preset = "slow" ∨ cpu_preset = "slower" ∨
          cpu_preset = "veryslow" then "slow"
  else if cpu_preset = "default" ∨ cpu_preset = "hp" ∨ cpu_preset = "hq" ∨
          cpu_preset = "bd" ∨ cpu_preset = "ll" ∨ cpu_preset = "llhq" ∨
          cpu_preset = "llhp" ∨ cpu_preset = "lossless" ∨
          cpu_preset = "losslesshp" then cpu_preset
  else "medium"

/-- The hardware encoder's own preset vocabulary, as stated by the source's
doc comment on `translate_nvenc_preset`: "NVENC only supports: default,
slow, medium, fast, hp (high performance)". -/
def nvencSupportedPresets : List String :=
  ["default", "slow", "medium", "fast", "hp"]

/-- Characters after the last occurrence of a separator satisfying `p`,
`none` when no such character occurs. -/
def afterLastP (p : Char → Bool) : List Char → Option (List Char)
  | [] => none
  | c :: cs =>
    match afterLastP p cs with
    | some r => some r
    | none => if p c then some cs else none

/-- Embedding of `Path::new(s).extension()`: the part of the final path
component after its last dot, where a leading dot (hidden-file style) does
not count as an extension separator. -/
def pathExtension (s : String) : Option String :=
  let cs := s.toList
  let name := (afterLastP (fun c => c = '/' || c = '\\') cs).getD cs
  match name with
  | [] => none
  | _ :: rest => (afterLastP (fun c => c = '.') rest).map (fun l => String.mk l)

/-- The per-job immutable configuration captured by `run_conversion_task`
from the task record (mod.rs lines 888-912). -/
structure ConvConfig : Type where
  input_file : String
  output_file : String
  ffmpeg_path : String
  encoder : String
  gpu_index : Option Nat
  cpu_threads : Option Nat
  preset : String
  is_adobe_preset : Bool
  adobe_preset : Option AdobePreset
deriving DecidableEq

/-- Embedding of the hardware-family test (mod.rs lines 921-924):
`is_nvenc || is_amf || is_qsv`, each a substring test on the encoder
name. -/
def isGpuEncoder (encoder : String) : Bool :=
  strContains encoder "nvenc" || strContains encoder "amf" ||
    strContains encoder "qsv"

/-- Embedding of `max_attempts` (mod.rs line 927): 4 for a hardware
encoder, 1 otherwise. -/
def maxAttempts (encoder : String) : Nat :=
  if isGpuEncoder encoder then 4 else 1

/-- Embedding of `cpu_fallback_encoder` (mod.rs lines 930-936). -/
def cpuFallbackEncoder (encoder : String) : String :=
  if strContains encoder "h264" || strContains encoder "264" then "libx264"
  else if strContains encoder "hevc" || strContains encoder "265" then "libx265"
  else "libx264"

/-- Embedding of `is_cpu_fallback` (mod.rs line 939). -/
def isCpuFallback (cfg : ConvConfig) (attempt : Nat) : Bool :=
  isGpuEncoder cfg.encoder && attempt = 3

/-- Embedding of `attempt_encoder` (mod.rs lines 944-948). -/
def attemptEncoder (cfg : ConvConfig) (attempt : Nat) : String :=
  if isCpuFallback cfg attempt then cpuFallbackEncoder cfg.encoder
  else cfg.encoder

/-- Codec family of an encoder name read off the name's codec markers.
Comparison definition following the spec's words for the attempt-3
substitution rule ("chosen by matching codec family"); it is diffed
against `cpuFallbackEncoder`, the definition taken from the source. -/
def specCodecFamily (encoder : String) : String :=
  if strContains encoder "h264" || strContains encoder "264" then "h264"
  else if strContains encoder "hevc" || strContains encoder "265" then "hevc"
  else if strContains encoder "av1" then "av1"
  else "other"

/-- Fixed leading arguments (mod.rs lines 950-956). -/
def baseArgs : List String :=
  ["-y", "-hide_banner", "-progress", "pipe:2", "-nostats"]

/-- Hardware-decode arguments (mod.rs lines 958-969), emitted only on
attempt 0 of a hardware-encoder job. -/
def hwDecodeArgs (cfg : ConvConfig) (attempt : Nat) : List String :=
  if isGpuEncoder cfg.encoder && attempt = 0 then
    ["-hwaccel"] ++
      (if strContains cfg.encoder "nvenc" then
        ["cuda"] ++
          (match cfg.gpu_index with
           | some i => ["-hwaccel_device", toString i]
           | none => [])
      else ["auto"])
  else []

/-- Thread-limit arguments (mod.rs lines 971-974). -/
def threadArgs (cfg : ConvConfig) : List String :=
  match cfg.cpu_threads with
  | some t => ["-threads", toString t]
  | none => []

/-- Stream-mapping arguments (mod.rs lines 979-993). -/
def mapArgs (fi : FormatInfo) : List String :=
  (if fi.supports_video then ["-map", "0:v:0?"] else []) ++
    (if fi.supports_audio then
      ["-map", if fi.supports_video then "0:a?" else "0:a:0?"]
    else [])

/-- Professional-preset codec arguments (mod.rs lines 996-1006). -/
def adobeCodecArgs (cfg : ConvConfig) : List String :=
  match cfg.adobe_preset with
  | some pc =>
    ["-c:v", pc.encoder] ++ pc.encoder_options ++
      ["-pix_fmt", pc.pixel_format] ++
      (if pc.encoder = "prores_ks" ∨ pc.encoder = "dnxhd" then
        ["-c:a", "pcm_s16le"]
      else [])
  | none => []

/-- Standard-path video codec arguments (mod.rs lines 1008-1028). -/
def videoCodecArgs (cfg : ConvConfig) (attempt : Nat) (fi : FormatInfo) :
    List String :=
  if fi.supports_video then
    ["-c:v", attemptEncoder cfg attempt] ++
      (if strContains cfg.encoder "nvenc" && !(isCpuFallback cfg attempt) then
        ["-preset", translate_nvenc_preset cfg.preset]
      else if attemptEncoder cfg attempt = "libx264" ∨
              attemptEncoder cfg attempt = "libx265" then
        ["-preset", cfg.preset]
      else []) ++
      (if strContains cfg.encoder "nvenc" && !(isCpuFallback cfg attempt) then
        match cfg.gpu_index with
        | some i => ["-gpu", toString i]
        | none => []
      else []) ++
      (if isGpuEncoder cfg.encoder && attempt = 2 then
        ["-pix_fmt", "nv12"]
      else [])
  else []

/-- Standard-path audio codec arguments (mod.rs lines 1029-1036). -/
def audioCodecArgs (fi : FormatInfo) : List String :=
  if fi.supports_audio then
    ["-c:a", if fi.default_audio_codec = "" then "copy"
             else fi.default_audio_codec]
  else []

/-- Codec-selection block (mod.rs lines 995-1037): professional preset
branch when configured and not on the CPU-fallback attempt, standard
encoder path otherwise. -/
def codecArgs (cfg : ConvConfig) (attempt : Nat) (fi : FormatInfo) :
    List String :=
  if cfg.is_adobe_preset && !(isCpuFallback cfg attempt) then
    adobeCodecArgs cfg
  else
    videoCodecArgs cfg attempt fi ++ audioCodecArgs fi

/-- Fast-start flag (mod.rs lines 1041-1044). -/
def movflagsArgs (ext : String) : List String :=
  if ext = "mp4" ∨ ext = "mov" ∨ ext = "m4a" then
    ["-movflags", "+faststart"]
  else []

/-- Embedding of the output-extension computation (mod.rs lines 914-918):
`Path::extension` with an `"mp4"` default, lower-cased. -/
def outputExt (cfg : ConvConfig) : String :=
  strToLower ((pathExtension cfg.output_file).getD "mp4")

/-- Embedding of the full per-attempt argument list built by
`run_conversion_task` (mod.rs lines 950-1046), as the concatenation of the
blocks in the order the source pushes them. -/
def buildArgs (cfg : ConvConfig) (attempt : Nat) : List String :=
  let ext := outputExt cfg
  let fi := get_format_info ext
  baseArgs ++ hwDecodeArgs cfg attempt ++ threadArgs cfg ++
    ["-i", cfg.input_file] ++ mapArgs fi ++ codecArgs cfg attempt fi ++
    movflagsArgs ext ++ [cfg.output_file]

/-- Embedding of `enum ConversionStatus` (mod.rs lines 643-650). -/
inductive ConversionStatus : Type where
  | Pending
  | Running
  | Completed
  | Failed (msg : String)
  | Cancelled
deriving DecidableEq

/-- Terminal-state test, from the `matches!` in `cancel_conversion`
(mod.rs lines 758-761). -/
def isTerminalStatus : ConversionStatus → Bool
  | .Completed => true
  | .Failed _ => true
  | .Cancelled => true
  | _ => false

/-- The mutable per-task state: the `progress` sub-record of
`ConversionTask` plus the `process`/`pid` fields (mod.rs lines 652-677).
`process` records whether `process_handle` currently holds the child
(`Option<Child>`, modelled by its `isSome`).  Two ghost fields instrument
externally observable facts that the record itself does not store:
`procOutstanding` is true from the moment an attempt's process is spawned
until the supervisor has waited on it (alive and not yet reaped), and
`kills` counts kill signals sent towards this task's process. -/
structure TaskState : Type where
  status : ConversionStatus
  percentage : ℚ
  current_time : ℚ
  duration : ℚ
  log : List String
  error_message : Option String
  process : Bool
  pid : Option Nat
  procOutstanding : Bool
  kills : Nat
deriving DecidableEq

/-- The initial task state built by `start_conversion`
(mod.rs lines 710-734). -/
def initTask : TaskState :=
  { status := .Pending
    percentage := 0
    current_time := 0
    duration := 0
    log := []
    error_message := none
    process := false
    pid := none
    procOutstanding := false
    kills := 0 }

/-- Log append for one diagnostic line (mod.rs line 1127). -/
def pushLog (s : TaskState) (line : String) : TaskState :=
  { s with log := s.log ++ [line] }

/-- Duration discovery for one line (mod.rs lines 1129-1141): parsed only
while the recorded duration is still zero. -/
def updateDuration (s : TaskState) (line : String) : TaskState :=
  if s.duration = 0 then
    match parseDurationLine line with
    | some d => { s with duration := d }
    | none => s
  else s

/-- Elapsed-time and percentage update for one line
(mod.rs lines 1143-1160): the new elapsed value is max-clamped against the
recorded one, and the percentage is recomputed as
`(current_time / duration * 100).min(100)` only when the known duration is
positive. -/
def updateTime (s : TaskState) (line : String) : TaskState :=
  match parsedTime line with
  | some t =>
    let s2 := { s with current_time := max t s.current_time }
    if 0 < s2.duration then
      { s2 with percentage := min (s2.current_time / s2.duration * 100) 100 }
    else s2
  | none => s

/-- Full per-line processing of the supervisor's stream loop
(mod.rs lines 1124-1161), in source order: log append, duration discovery,
elapsed/percentage update. -/
def processLine (s : TaskState) (line : String) : TaskState :=
  updateTime (updateDuration (pushLog s line) line) line

/-- Folding `processLine` over a list of diagnostic lines. -/
def processLines (s : TaskState) (lines : List String) : TaskState :=
  lines.foldl processLine s

/-- Per-attempt log message (mod.rs lines 1051-1070); the Rust `match` on
the attempt index with a guard arm is rendered in the same order. -/
def attemptLogMsg (cfg : ConvConfig) (attempt : Nat) : String :=
  if attempt = 1 then "Retrying with software decode + GPU encode..."
  else if attempt = 2 then "Retrying with forced NV12 pixel format..."
  else if attempt = 3 then
    "GPU encode failed. Falling back to CPU software encoder..."
  else if isGpuEncoder cfg.encoder then "Starting GPU accelerated conversion."
  else "Starting software conversion."

/-- Observable events of one `run_conversion_task` execution, each naming
the source block whose state mutation it performs.  Cancellation requests
from `cancel_conversion` can interleave between the supervisor's critical
sections and are included as an event. -/
inductive SupEvent : Type where
  | attemptStart (attempt : Nat)
  | spawnFailRetry (errMsg : String)
  | spawnFailFinal (errMsg : String)
  | spawned (procId : Nat)
  | streamLine (line : String)
  | exitSuccess
  | exitFailure (codeStr : String)
  | waitError (errMsg : String)
  | validationFailRetry (problem : String)
  | validationFailFinal (problem : String)
  | validationPass
  | cancelRequest (lockAcquired : Bool)

/-- The state mutation `cancel_conversion` performs on a task whose lock it
acquired (mod.rs lines 757-769): nothing when the status is already
terminal; otherwise a kill signal towards the recorded child handle or,
failing that, the recorded pid, and then the transition to `Cancelled`. -/
def cancelBody (t : TaskState) : TaskState :=
  if isTerminalStatus t.status then t
  else
    { t with
      kills := t.kills + (if t.process then 1
                          else if t.pid.isSome then 1 else 0)
      status := .Cancelled }

/-- One supervisor (or interleaved cancellation) step on the shared task
record.  Each arm is the state mutation of the corresponding block of
`run_conversion_task`:
* `attemptStart` — mod.rs lines 1048-1074: status set to `Running`, two
  log lines pushed; nothing else is touched.
* `spawnFailRetry`/`spawnFailFinal` — mod.rs lines 1090-1104.
* `spawned` — mod.rs lines 1113-1118: the child is stored, the pid
  mirrored, and the handle immediately taken back out of the record inside
  the same critical section, so the observable post-state has
  `process = false` while the pid stays recorded; the ghost
  `procOutstanding` becomes true.
* `streamLine` — mod.rs lines 1124-1161 via `processLine`.
* `exitSuccess`/`exitFailure`/`waitError` — mod.rs lines 1163-1191:
  handle and pid cleared; a non-success exit sets `Failed` and the error
  message unconditionally.
* `validationFailRetry`/`validationFailFinal`/`validationPass` —
  mod.rs lines 1196-1219.
* `cancelRequest` — mod.rs lines 753-779 acting on this task. -/
def supStep (cfg : ConvConfig) (s : TaskState) : SupEvent → TaskState
  | .attemptStart attempt =>
    { s with
      status := .Running
      log := s.log ++ [attemptLogMsg cfg attempt,
        "FFmpeg args: " ++ String.intercalate " " (buildArgs cfg attempt)] }
  | .spawnFailRetry errMsg =>
    { s with log := s.log ++ ["FFmpeg start failed (" ++ errMsg ++ "). Will retry..."] }
  | .spawnFailFinal errMsg =>
    let message := "Failed to start ffmpeg: " ++ errMsg ++ " (path: " ++
      cfg.ffmpeg_path ++ ")"
    { s with status := .Failed message, error_message := some message }
  | .spawned procId =>
    { s with process := false, pid := some procId, procOutstanding := true }
  | .streamLine line => processLine s line
  | .exitSuccess =>
    { s with process := false, pid := none, procOutstanding := false }
  | .exitFailure codeStr =>
    let errMsg := "FFmpeg exited with code: " ++ codeStr
    { s with
      process := false
      pid := none
      procOutstanding := false
      status := .Failed errMsg
      error_message := some errMsg }
  | .waitError e =>
    let errMsg := "Failed to wait for FFmpeg process: " ++ e
    { s with
      process := false
      pid := none
      procOutstanding := false
      status := .Failed errMsg
      error_message := some errMsg }
  | .validationFailRetry problem =>
    { s with log := s.log ++
        ["Output validation failed: " ++ problem ++ ". Retrying..."] }
  | .validationFailFinal problem =>
    let errMsg := "Conversion produced corrupt output: " ++ problem
    { s with
      log := s.log ++ ["Output validation failed: " ++ problem ++ ". Retrying..."]
      status := .Failed errMsg
      error_message := some errMsg }
  | .validationPass =>
    { s with status := .Completed, percentage := 100 }
  | .cancelRequest lockAcquired =>
    if lockAcquired then cancelBody s else s

/-- Folding a sequence of supervisor/cancellation events over a task. -/
def runSup (cfg : ConvConfig) (s : TaskState) (es : List SupEvent) : TaskState :=
  es.foldl (supStep cfg) s

/-- The manager's task registry: `HashMap<String, Arc<Mutex<ConversionTask>>>`
modelled as an association list with unique keys. -/
abbrev Registry : Type := List (String × TaskState)

/-- Registry lookup (`self.tasks.get(task_id)`). -/
def lookupTask : Registry → String → Option TaskState
  | [], _ => none
  | (k, t) :: r, id => if k = id then some t else lookupTask r id

/-- In-place mutation of the task behind an id, the model of writing
through its `Arc<Mutex<..>>`. -/
def updateTask : Registry → String → TaskState → Registry
  | [], _, _ => []
  | (k, t) :: r, id, t2 =>
    if k = id then (k, t2) :: r else (k, t) :: updateTask r id t2

/-- Result of `cancel_conversion`: `Ok(())` or the "Task not found"
error. -/
inductive CancelResult : Type where
  | ok
  | notFound
deriving DecidableEq

/-- Embedding of `FfmpegManager::cancel_conversion` (mod.rs lines
753-779).  `lockOk` is the outcome of the non-blocking `try_lock`:
when it fails the call is a no-op that still returns `Ok`. -/
def cancel_conversion (reg : Registry) (id : String) (lockOk : Bool) :
    Registry × CancelResult :=
  match lookupTask reg id with
  | none => (reg, .notFound)
  | some t =>
    if lockOk then (updateTask reg id (cancelBody t), .ok)
    else (reg, .ok)

/-- Phase 1 of `cancel_all` for one task id (mod.rs lines 785-793): under a
successful `try_lock`, a kill signal by recorded pid; the task record
itself is not otherwise written. -/
def cancelAllKillPass (lock1 : String → Bool) (r : Registry) (id : String) :
    Registry :=
  match lookupTask r id with
  | some t =>
    if lock1 id then
      if t.pid.isSome then updateTask r id { t with kills := t.kills + 1 }
      else r
    else r
  | none => r

/-- Embedding of `FfmpegManager::cancel_all` (mod.rs lines 781-802): a
best-effort kill of every registered task's recorded pid, a grace delay
(no state change), then a `cancel_conversion` pass over every id.
`lock1`/`lock2` give each `try_lock` outcome in the two passes. -/
def cancel_all (reg : Registry) (lock1 lock2 : String → Bool) : Registry :=
  let ids := reg.map Prod.fst
  let reg1 := ids.foldl (cancelAllKillPass lock1) reg
  ids.foldl (fun r id => (cancel_conversion r id (lock2 id)).1) reg1

/-- Preset-profile resolution performed by `start_conversion`
(mod.rs lines 704-708): a name lookup in the catalog, only when the job
requests a professional preset. -/
def resolveAdobePreset (is_adobe_preset : Bool) (preset : String) :
    Option AdobePreset :=
  if is_adobe_preset then get_adobe_presets.find? (fun p => p.name == preset)
  else none

/-- Invariant of the progress fields maintained by the stream loop from
the initial task state: nonnegative times the percentage bounded to
`[0, 100]`, zero while no duration is known, and dominated by the derived
formula once a duration is known. -/
def ProgressInv (s : TaskState) : Prop :=
  0 ≤ s.current_time ∧ 0 ≤ s.duration ∧ 0 ≤ s.percentage ∧
    s.percentage ≤ 100 ∧ (s.duration = 0 → s.percentage = 0) ∧
    (0 < s.duration → s.percentage ≤ min 100 (s.current_time / s.duration * 100))

/-- A plain software-encoder job configuration used as a concrete test
vehicle. -/
def sampleCfg : ConvConfig :=
  { input_file := "in.mkv"
    output_file := "out.mp4"
    ffmpeg_path := "ffmpeg"
    encoder := "libx264"
    gpu_index := none
    cpu_threads := none
    preset := "medium"
    is_adobe_preset := false
    adobe_preset := none }

/-- A hardware-encoder job configuration (NVENC H.264). -/
def cfgGpu : ConvConfig :=
  { sampleCfg with encoder := "h264_nvenc", gpu_index := some 0 }

/-- The first catalog entry, used to exercise the professional-preset
branch. -/
def proresPreset : AdobePreset :=
  { name := "prores_422"
    description := "Apple ProRes 422 (High Quality for Premiere Pro / Final Cut)"
    encoder := "prores_ks"
    encoder_options := ["-profile:v", "2"]
    pixel_format := "yuv422p10le" }

/-- A job that requests the `prores_422` professional preset. -/
def cfgAdobe : ConvConfig :=
  { sampleCfg with
    preset := "prores_422"
    is_adobe_preset := true
    adobe_preset := some proresPreset }

/-- A job that requests a professional preset under a name absent from the
catalog: resolution yields `none`. -/
def cfgAdobeUnknown : ConvConfig :=
  { sampleCfg with
    preset := "cinema_master"
    is_adobe_preset := true
    adobe_preset := none }

/-- A registered task mid-attempt: running with a recorded pid. -/
def runningTask : TaskState :=
  { initTask with status := .Running, pid := some 5, procOutstanding := true }

/-- A one-entry registry holding `runningTask`. -/
def runningReg : Registry := [("t1", runningTask)]

/-! Theorems.  Each claim of the specification is settled below; helper
lemmas come first within each group. -/

/-- C9 counterexample: the quality preset `fast` belongs to the hardware
encoder's own vocabulary (the source's doc comment lists "default, slow,
medium, fast, hp"), yet `translate_nvenc_preset` maps it to `medium`
instead of passing it through unchanged. -/
theorem translate_fast_counterexample :
    "fast" ∈ nvencSupportedPresets ∧
      translate_nvenc_preset "fast" = "medium" ∧
      translate_nvenc_preset "fast" ≠ "fast" := by
  decide

/-- C9 (amended): the four fast-tier software names collapse to `fast`;
the software names `fast` and `medium` both map to `medium` (so the valid
hardware name `fast` does not pass through); the three slow-tier names
collapse to `slow`; the remaining recognized hardware names pass through
unchanged; every unrecognized name falls back to `medium`. -/
theorem translate_nvenc_preset_amended :
    (∀ p ∈ (["ultrafast", "superfast", "veryfast", "faster"] : List String),
      translate_nvenc_preset p = "fast") ∧
    (∀ p ∈ (["fast", "medium"] : List String),
      translate_nvenc_preset p = "medium") ∧
    (∀ p ∈ (["slow", "slower", "veryslow"] : List String),
      translate_nvenc_preset p = "slow") ∧
    (∀ p ∈ (["default", "hp", "hq", "bd", "ll", "llhq", "llhp", "lossless",
        "losslesshp"] : List String),
      translate_nvenc_preset p = p) ∧
    (∀ p : String,
      p ∉ (["ultrafast", "superfast", "veryfast", "faster", "fast", "medium",
        "slow", "slower", "veryslow", "default", "hp", "hq", "bd", "ll",
        "llhq", "llhp", "lossless", "losslesshp"] : List String) →
      translate_nvenc_preset p = "medium") := by
  refine ⟨by decide, by decide, by decide, by decide, ?_⟩
  intro p hp
  simp only [List.mem_cons, List.not_mem_nil, or_false, not_or] at hp
  unfold translate_nvenc_preset
  split_ifs with h1 h2 h3 h4 <;> tauto

/-- C9 witness: the amended translation evaluated on one name of each
category. -/
theorem translate_nvenc_preset_amended_witness :
    translate_nvenc_preset "ultrafast" = "fast" ∧
      translate_nvenc_preset "medium" = "medium" ∧
      translate_nvenc_preset "veryslow" = "slow" ∧
      translate_nvenc_preset "hq" = "hq" ∧
      translate_nvenc_preset "zzz" = "medium" :=
  ⟨translate_nvenc_preset_amended.1 "ultrafast" (by decide),
    translate_nvenc_preset_amended.2.1 "medium" (by decide),
    translate_nvenc_preset_amended.2.2.1 "veryslow" (by decide),
    translate_nvenc_preset_amended.2.2.2.1 "hq" (by decide),
    translate_nvenc_preset_amended.2.2.2.2 "zzz" (by decide)⟩

/-- C5 counterexample: a millisecond-named counter line is divided by
1,000,000 (mod.rs line 1150), so `out_time_ms=2000` is recorded as 1/500
of a second, not the 2 seconds the claim's `N/1,000` normalization would
give. -/
theorem out_time_ms_counterexample :
    parsedTime "out_time_ms=2000" = some ((1 : ℚ) / 500) ∧
      ((1 : ℚ) / 500) ≠ (2000 : ℚ) / 1000 := by
  constructor
  · have h : extractTimeField "out_time_ms=2000" = some (.outTimeMs 2000) := by
      decide
    rw [parsedTime, h, Option.map_some']
    norm_num [timeFieldSeconds]
  · norm_num

/-- C5 (amended): a microsecond counter field `out_time_us=N` is
normalized to `N/1,000,000` seconds, and a millisecond-named counter
field `out_time_ms=N` is also divided by 1,000,000 (the source treats the
value as microseconds), yielding `N/1,000,000` seconds. -/
theorem counter_fields_normalization :
    (∀ (line : String) (n : Nat),
      extractTimeField line = some (.outTimeUs n) →
      parsedTime line = some ((n : ℚ) / 1000000)) ∧
    (∀ (line : String) (n : Nat),
      extractTimeField line = some (.outTimeMs n) →
      parsedTime line = some ((n : ℚ) / 1000000)) := by
  constructor <;> (intro line n h; simp [parsedTime, h, timeFieldSeconds])

/-- C5 witness: the amended normalization evaluated on one concrete line
of each counter spelling. -/
theorem counter_fields_normalization_witness :
    (extractTimeField "out_time_us=1500000" = some (.outTimeUs 1500000) ∧
      parsedTime "out_time_us=1500000" = some ((1500000 : ℚ) / 1000000)) ∧
    (extractTimeField "out_time_ms=500" = some (.outTimeMs 500) ∧
      parsedTime "out_time_ms=500" = some ((500 : ℚ) / 1000000)) :=
  ⟨⟨by decide, counter_fields_normalization.1 "out_time_us=1500000" 1500000 (by decide)⟩,
    ⟨by decide, counter_fields_normalization.2 "out_time_ms=500" 500 (by decide)⟩⟩

/-- C2 counterexample: `av1_nvenc` is a hardware encoder name (contains
the `nvenc` marker), but the attempt-3 substitution falls back to
`libx264`, which is not of the same codec family as the configured AV1
hardware encoder. -/
theorem cpu_fallback_family_counterexample :
    isGpuEncoder "av1_nvenc" = true ∧
      cpuFallbackEncoder "av1_nvenc" = "libx264" ∧
      specCodecFamily (cpuFallbackEncoder "av1_nvenc") ≠
        specCodecFamily "av1_nvenc" := by
  decide

/-- C1: evaluation of the supervisor/cancellation model at the failing
input.  A hardware-encoder job is cancelled during attempt 0 (status
becomes `Cancelled`, terminal); the killed process then exits non-zero and
the exit handling of mod.rs line 1179 unconditionally overwrites the
status with `Failed`; the loop then proceeds to attempt 1 and mod.rs line
1050 overwrites it again with `Running`.  Each event below corresponds to
a reachable interleaving: `cancel_conversion` acquires the task lock while
the supervisor is suspended awaiting the process. -/
theorem run_conversion_overwrites_terminal_status :
    (runSup cfgGpu initTask
        [.attemptStart 0, .spawned 42, .cancelRequest true]).status =
      .Cancelled ∧
    (runSup cfgGpu initTask
        [.attemptStart 0, .spawned 42, .cancelRequest true,
          .exitFailure "1"]).status =
      .Failed "FFmpeg exited with code: 1" ∧
    (runSup cfgGpu initTask
        [.attemptStart 0, .spawned 42, .cancelRequest true,
          .exitFailure "1", .attemptStart 1]).status = .Running := by
  refine ⟨rfl, rfl, rfl⟩

/-- C3 counterexample: attempt 0 of a hardware job discovers a 10 s
duration, reaches 5 s elapsed (50 %), and fails; at the start of attempt 1
(the retry) the task is `Running` again but elapsed time, percentage and
duration still hold the failed attempt's values and the stale error
message is still present — nothing is reset or cleared. -/
theorem retry_reset_counterexample :
    (runSup cfgGpu initTask
        [.attemptStart 0, .spawned 7,
          .streamLine "Duration: 00:00:10.00, start: 0.000000",
          .streamLine "out_time=00:00:05.00",
          .exitFailure "1", .attemptStart 1]).status = .Running ∧
    (runSup cfgGpu initTask
        [.attemptStart 0, .spawned 7,
          .streamLine "Duration: 00:00:10.00, start: 0.000000",
          .streamLine "out_time=00:00:05.00",
          .exitFailure "1", .attemptStart 1]).error_message =
      some "FFmpeg exited with code: 1" ∧
    (runSup cfgGpu initTask
        [.attemptStart 0, .spawned 7,
          .streamLine "Duration: 00:00:10.00, start: 0.000000",
          .streamLine "out_time=00:00:05.00",
          .exitFailure "1", .attemptStart 1]).duration = 10 ∧
    (runSup cfgGpu initTask
        [.attemptStart 0, .spawned 7,
          .streamLine "Duration: 00:00:10.00, start: 0.000000",
          .streamLine "out_time=00:00:05.00",
          .exitFailure "1", .attemptStart 1]).current_time = 5 ∧
    (runSup cfgGpu initTask
        [.attemptStart 0, .spawned 7,
          .streamLine "Duration: 00:00:10.00, start: 0.000000",
          .streamLine "out_time=00:00:05.00",
          .exitFailure "1", .attemptStart 1]).percentage = 50 := by
  have hdur : parseDurationLine "Duration: 00:00:10.00, start: 0.000000" =
      some (hmsSeconds 0 0 10 0 2) := by
    have h : scanTimeShape "Duration: " "Duration: 00:00:10.00, start: 0.000000" =
        some (0, 0, 10, 0, 2) := by decide
    rw [parseDurationLine, h, Option.map_some']
  have hnotime : parsedTime "Duration: 00:00:10.00, start: 0.000000" = none := by
    have h : extractTimeField "Duration: 00:00:10.00, start: 0.000000" = none := by
      decide
    rw [parsedTime, h, Option.map_none']
  have htime : parsedTime "out_time=00:00:05.00" =
      some (hmsSeconds 0 0 5 0 2) := by
    have h : extractTimeField "out_time=00:00:05.00" =
        some (.timeHMS 0 0 5 0 2) := by decide
    rw [parsedTime, h, Option.map_some']
    rfl
  have hnodur : parseDurationLine "out_time=00:00:05.00" = none := by
    have h : scanTimeShape "Duration: " "out_time=00:00:05.00" = none := by decide
    rw [parseDurationLine, h, Option.map_none']
  simp only [runSup, List.foldl, supStep, processLine, pushLog, updateDuration,
    updateTime, hdur, hnotime, htime, hnodur]
  norm_num [hmsSeconds, initTask, max_def, min_def]
  rfl

/-- C3 (amended): the start of a retry attempt sets the status to
`Running` and appends two log lines; it leaves elapsed time, percentage,
duration and the error message of the failed attempt untouched — no
progress field is reset and no stale error message is cleared. -/
theorem retry_preserves_progress_fields (cfg : ConvConfig) (s : TaskState)
    (attempt : Nat) :
    (supStep cfg s (.attemptStart attempt)).status = .Running ∧
      (supStep cfg s (.attemptStart attempt)).current_time = s.current_time ∧
      (supStep cfg s (.attemptStart attempt)).percentage = s.percentage ∧
      (supStep cfg s (.attemptStart attempt)).duration = s.duration ∧
      (supStep cfg s (.attemptStart attempt)).error_message =
        s.error_message := by
  exact ⟨rfl, rfl, rfl, rfl, rfl⟩

/-- C7 counterexample: immediately after an attempt's process is spawned
(and observably so, since the supervisor stores the child and takes it
back inside one critical section, mod.rs lines 1113-1118), the process is
alive and unreaped and the pid is recorded, yet `process_handle` is
`None` — refuting the claimed "both `Some` iff alive" invariant for the
handle. -/
theorem process_handle_counterexample :
    (runSup cfgGpu initTask [.attemptStart 0, .spawned 42]).procOutstanding =
        true ∧
      (runSup cfgGpu initTask [.attemptStart 0, .spawned 42]).process =
        false ∧
      (runSup cfgGpu initTask [.attemptStart 0, .spawned 42]).pid =
        some 42 := by
  decide

/-- The attempt-3 fallback encoder is always one of the two software
encoders. -/
theorem cpuFallbackEncoder_cases (e : String) :
    cpuFallbackEncoder e = "libx264" ∨ cpuFallbackEncoder e = "libx265" := by
  unfold cpuFallbackEncoder
  split_ifs <;> simp

/-- C2 (amended): a hardware-marked encoder name yields exactly 4
attempts and attempt 3 substitutes `libx264` for H.264-marked names
(`h264`/`264`), `libx265` for HEVC-marked names (`hevc`/`265`), and
`libx264` by default for any other hardware name (so e.g. an AV1 hardware
encoder falls back to the H.264 software encoder); the attempt-3 command
carries no hardware-decode arguments, its video-codec block is exactly the
software encoder plus the raw (untranslated) quality preset, and the whole
argument list is independent of the configured GPU index.  A name without
the markers yields exactly 1 attempt. -/
theorem attempt_ladder_amended (cfg : ConvConfig) :
    (isGpuEncoder cfg.encoder = true →
      maxAttempts cfg.encoder = 4 ∧
      attemptEncoder cfg 3 = cpuFallbackEncoder cfg.encoder ∧
      ((strContains cfg.encoder "h264" || strContains cfg.encoder "264") =
          true →
        cpuFallbackEncoder cfg.encoder = "libx264") ∧
      ((strContains cfg.encoder "h264" || strContains cfg.encoder "264") =
          false →
        (strContains cfg.encoder "hevc" || strContains cfg.encoder "265") =
          true →
        cpuFallbackEncoder cfg.encoder = "libx265") ∧
      ((strContains cfg.encoder "h264" || strContains cfg.encoder "264") =
          false →
        (strContains cfg.encoder "hevc" || strContains cfg.encoder "265") =
          false →
        cpuFallbackEncoder cfg.encoder = "libx264") ∧
      hwDecodeArgs cfg 3 = [] ∧
      (∀ fi : FormatInfo, fi.supports_video = true →
        videoCodecArgs cfg 3 fi =
          ["-c:v", cpuFallbackEncoder cfg.encoder, "-preset", cfg.preset]) ∧
      (∀ g : Option Nat,
        buildArgs { cfg with gpu_index := g } 3 =
          buildArgs { cfg with gpu_index := none } 3)) ∧
    (isGpuEncoder cfg.encoder = false → maxAttempts cfg.encoder = 1) := by
  constructor
  · intro h
    have hcf : isCpuFallback cfg 3 = true := by simp [isCpuFallback, h]
    have hae : attemptEncoder cfg 3 = cpuFallbackEncoder cfg.encoder := by
      simp [attemptEncoder, hcf]
    refine ⟨by simp [maxAttempts, h], hae, ?_, ?_, ?_, ?_, ?_, ?_⟩
    · intro h1; simp [cpuFallbackEncoder, h1]
    · intro h1 h2; simp [cpuFallbackEncoder, h1, h2]
    · intro h1 h2; simp [cpuFallbackEncoder, h1, h2]
    · simp [hwDecodeArgs]
    · intro fi hv
      rcases cpuFallbackEncoder_cases cfg.encoder with hfb | hfb <;>
        simp [videoCodecArgs, hv, hcf, hae, hfb]
    · intro g
      by_cases hn : strContains cfg.encoder "nvenc" = true <;>
        · have hcf2 : ∀ gi : Option Nat,
              isCpuFallback { cfg with gpu_index := gi } 3 = true := by
            intro gi; simp [isCpuFallback, h]
          simp [buildArgs, outputExt, hwDecodeArgs, threadArgs, mapArgs,
            codecArgs, adobeCodecArgs, videoCodecArgs, audioCodecArgs,
            movflagsArgs, attemptEncoder, hcf2, hn, h]
  · intro h; simp [maxAttempts, h]

/-- C2 witness: the amended attempt-ladder facts evaluated at the concrete
NVENC H.264 job `cfgGpu` and at the software job `sampleCfg`. -/
theorem attempt_ladder_amended_witness :
    maxAttempts cfgGpu.encoder = 4 ∧
      attemptEncoder cfgGpu 3 = cpuFallbackEncoder cfgGpu.encoder ∧
      cpuFallbackEncoder cfgGpu.encoder = "libx264" ∧
      hwDecodeArgs cfgGpu 3 = [] ∧
      maxAttempts sampleCfg.encoder = 1 := by
  have hg := (attempt_ladder_amended cfgGpu).1 (by decide)
  have hs := (attempt_ladder_amended sampleCfg).2 (by decide)
  exact ⟨hg.1, hg.2.1, hg.2.2.1 (by decide), hg.2.2.2.2.2.1, hs⟩

/-- C6 counterexample: a professional-preset job whose name matches no
catalog entry resolves to `none`, but the built argument list then
contains no codec selection at all — in particular no `-c:v` — instead of
falling back to the standard encoder path, whose argument list differs. -/
theorem unknown_adobe_preset_counterexample :
    resolveAdobePreset true "cinema_master" = none ∧
      "-c:v" ∉ buildArgs cfgAdobeUnknown 0 ∧
      "-c:v" ∈ buildArgs { cfgAdobeUnknown with is_adobe_preset := false } 0 ∧
      buildArgs cfgAdobeUnknown 0 ≠
        buildArgs { cfgAdobeUnknown with is_adobe_preset := false } 0 := by
  decide

/-- C6 (amended): when the requested professional preset name resolves to
a catalog entry, the built argument list contains, contiguously, exactly
that preset's encoder, its literal option list and its pixel format; when
the name matches no catalog entry, resolution yields `none` and the codec
block of the built argument list is empty — neither the preset's nor the
standard encoder path's codec arguments are emitted. -/
theorem adobe_preset_args_amended :
    (∀ (cfg : ConvConfig) (attempt : Nat) (p : AdobePreset),
      cfg.is_adobe_preset = true → cfg.adobe_preset = some p →
      isCpuFallback cfg attempt = false →
      List.IsInfix
        (["-c:v", p.encoder] ++ p.encoder_options ++
          ["-pix_fmt", p.pixel_format])
        (buildArgs cfg attempt)) ∧
    (∀ name : String, (∀ p ∈ get_adobe_presets, p.name ≠ name) →
      resolveAdobePreset true name = none) ∧
    (∀ (cfg : ConvConfig) (attempt : Nat),
      cfg.is_adobe_preset = true → cfg.adobe_preset = none →
      isCpuFallback cfg attempt = false →
      codecArgs cfg attempt (get_format_info (outputExt cfg)) = []) := by
  refine ⟨?_, ?_, ?_⟩
  · intro cfg attempt p ha hp hcf
    have hc : codecArgs cfg attempt (get_format_info (outputExt cfg)) =
        ["-c:v", p.encoder] ++ p.encoder_options ++
          ["-pix_fmt", p.pixel_format] ++
          (if p.encoder = "prores_ks" ∨ p.encoder = "dnxhd" then
            ["-c:a", "pcm_s16le"] else []) := by
      simp [codecArgs, ha, hcf, adobeCodecArgs, hp]
    refine ⟨baseArgs ++ hwDecodeArgs cfg attempt ++ threadArgs cfg ++
      ["-i", cfg.input_file] ++ mapArgs (get_format_info (outputExt cfg)),
      (if p.encoder = "prores_ks" ∨ p.encoder = "dnxhd" then
        ["-c:a", "pcm_s16le"] else []) ++ movflagsArgs (outputExt cfg) ++
      [cfg.output_file], ?_⟩
    simp [buildArgs, hc]
  · intro name h
    simp only [resolveAdobePreset, if_pos, List.find?_eq_none, beq_iff_eq]
    intro p hp
    exact h p hp
  · intro cfg attempt ha hn hcf
    simp [codecArgs, ha, hcf, adobeCodecArgs, hn]

/-- C6 witness: the amended preset facts evaluated at the `prores_422`
job and at the unknown-name job. -/
theorem adobe_preset_args_amended_witness :
    List.IsInfix
        ["-c:v", "prores_ks", "-profile:v", "2", "-pix_fmt", "yuv422p10le"]
        (buildArgs cfgAdobe 0) ∧
      resolveAdobePreset true "cinema_master" = none ∧
      codecArgs cfgAdobeUnknown 0
        (get_format_info (outputExt cfgAdobeUnknown)) = [] := by
  refine ⟨?_, ?_, ?_⟩
  · have h := adobe_preset_args_amended.1 cfgAdobe 0 proresPreset rfl rfl
      (by decide)
    simpa using h
  · exact adobe_preset_args_amended.2.1 "cinema_master" (by decide)
  · exact adobe_preset_args_amended.2.2 cfgAdobeUnknown 0 rfl rfl (by decide)

/-- The `h:m:s.frac` seconds value is nonnegative. -/
theorem hmsSeconds_nonneg (h m si fr len : Nat) :
    0 ≤ hmsSeconds h m si fr len := by
  unfold hmsSeconds
  positivity

/-- A parsed duration is nonnegative. -/
theorem parseDurationLine_nonneg {line : String} {d : ℚ}
    (h : parseDurationLine line = some d) : 0 ≤ d := by
  unfold parseDurationLine at h
  cases hs : scanTimeShape "Duration: " line with
  | none => rw [hs] at h; simp at h
  | some t =>
    rw [hs, Option.map_some'] at h
    obtain rfl : hmsSeconds t.1 t.2.1 t.2.2.1 t.2.2.2.1 t.2.2.2.2 = d :=
      Option.some_inj.mp h
    exact hmsSeconds_nonneg _ _ _ _ _

/-- `pushLog` changes only the log. -/
theorem pushLog_fields (s : TaskState) (line : String) :
    (pushLog s line).current_time = s.current_time ∧
      (pushLog s line).percentage = s.percentage ∧
      (pushLog s line).duration = s.duration ∧
      (pushLog s line).pid = s.pid ∧
      (pushLog s line).process = s.process ∧
      (pushLog s line).procOutstanding = s.procOutstanding ∧
      (pushLog s line).status = s.status ∧
      (pushLog s line).error_message = s.error_message ∧
      (pushLog s line).kills = s.kills :=
  ⟨rfl, rfl, rfl, rfl, rfl, rfl, rfl, rfl, rfl⟩

/-- `updateDuration` changes only the duration. -/
theorem updateDuration_fields (s : TaskState) (line : String) :
    (updateDuration s line).current_time = s.current_time ∧
      (updateDuration s line).percentage = s.percentage ∧
      (updateDuration s line).log = s.log ∧
      (updateDuration s line).pid = s.pid ∧
      (updateDuration s line).process = s.process ∧
      (updateDuration s line).procOutstanding = s.procOutstanding ∧
      (updateDuration s line).status = s.status ∧
      (updateDuration s line).error_message = s.error_message ∧
      (updateDuration s line).kills = s.kills := by
  unfold updateDuration
  split
  · split <;> simp
  · simp

/-- `updateTime` changes only the elapsed time and percentage. -/
theorem updateTime_fields (s : TaskState) (line : String) :
    (updateTime s line).duration = s.duration ∧
      (updateTime s line).log = s.log ∧
      (updateTime s line).pid = s.pid ∧
      (updateTime s line).process = s.process ∧
      (updateTime s line).procOutstanding = s.procOutstanding ∧
      (updateTime s line).status = s.status ∧
      (updateTime s line).error_message = s.error_message ∧
      (updateTime s line).kills = s.kills := by
  unfold updateTime
  split
  · dsimp only
    split_ifs <;> simp
  · simp

/-- Behavior of `updateDuration` on the duration itself: left alone when
already nonzero, otherwise replaced by a parsed (nonnegative) value when
one is present. -/
theorem updateDuration_duration (s : TaskState) (line : String) :
    (updateDuration s line).duration = s.duration ∨
      (s.duration = 0 ∧ 0 ≤ (updateDuration s line).duration) := by
  unfold updateDuration
  split
  · rename_i h0
    split
    · rename_i d hd
      exact Or.inr ⟨h0, parseDurationLine_nonneg hd⟩
    · exact Or.inl rfl
  · exact Or.inl rfl

/-- `updateDuration` does not turn a nonzero duration into another value,
nor a zero duration into anything negative; and a zero result means the
input duration was zero. -/
theorem updateDuration_duration_zero (s : TaskState) (line : String)
    (h : (updateDuration s line).duration = 0) : s.duration = 0 := by
  rcases updateDuration_duration s line with h1 | h1
  · rw [← h1]; exact h
  · exact h1.1

/-- `updateDuration` is the identity once a nonzero duration is known. -/
theorem updateDuration_of_ne (s : TaskState) (line : String)
    (h : s.duration ≠ 0) : updateDuration s line = s := by
  unfold updateDuration
  exact if_neg h

/-- `updateTime` on a line with no elapsed-time field is the identity. -/
theorem updateTime_none (s : TaskState) (line : String)
    (h : parsedTime line = none) : updateTime s line = s := by
  unfold updateTime
  rw [h]

/-- The elapsed time after `updateTime` on a parsed value is the
max-clamp of the source. -/
theorem updateTime_some_current_time (s : TaskState) (line : String) (t : ℚ)
    (h : parsedTime line = some t) :
    (updateTime s line).current_time = max t s.current_time := by
  unfold updateTime
  rw [h]
  dsimp only
  split_ifs <;> rfl

/-- The percentage after `updateTime` on a parsed value, when a nonzero
duration is known. -/
theorem updateTime_some_pct_pos (s : TaskState) (line : String) (t : ℚ)
    (h : parsedTime line = some t) (hd : 0 < s.duration) :
    (updateTime s line).percentage =
      min (max t s.current_time / s.duration * 100) 100 := by
  unfold updateTime
  rw [h]
  dsimp only
  rw [if_pos hd]

/-- The percentage after `updateTime` on a parsed value is untouched while
no positive duration is known. -/
theorem updateTime_some_pct_nonpos (s : TaskState) (line : String) (t : ℚ)
    (h : parsedTime line = some t) (hd : ¬ 0 < s.duration) :
    (updateTime s line).percentage = s.percentage := by
  unfold updateTime
  rw [h]
  dsimp only
  rw [if_neg hd]

/-- The recorded elapsed time never decreases across one processed
line. -/
theorem processLine_current_time_mono (s : TaskState) (line : String) :
    s.current_time ≤ (processLine s line).current_time := by
  unfold processLine
  have e1 : (updateDuration (pushLog s line) line).current_time =
      s.current_time := (updateDuration_fields (pushLog s line) line).1
  cases ht : parsedTime line with
  | none => rw [updateTime_none _ _ ht, e1]
  | some t =>
    rw [updateTime_some_current_time _ _ t ht, e1]
    exact le_max_right t s.current_time

/-- Full invariant preservation and percentage monotonicity across one
processed line. -/
theorem processLine_inv (s : TaskState) (line : String)
    (hInv : ProgressInv s) :
    ProgressInv (processLine s line) ∧
      s.percentage ≤ (processLine s line).percentage := by
  obtain ⟨hct, hdur, hp0, hp100, hz, hf⟩ := hInv
  have e1 : (updateDuration (pushLog s line) line).current_time =
      s.current_time := (updateDuration_fields (pushLog s line) line).1
  have e2 : (updateDuration (pushLog s line) line).percentage =
      s.percentage := (updateDuration_fields (pushLog s line) line).2.1
  have hps : (pushLog s line).duration = s.duration := rfl
  have eD : (updateDuration (pushLog s line) line).duration = s.duration ∨
      s.duration = 0 ∧ 0 ≤ (updateDuration (pushLog s line) line).duration := by
    rcases updateDuration_duration (pushLog s line) line with h | h
    · exact Or.inl (h.trans hps)
    · exact Or.inr ⟨hps ▸ h.1, h.2⟩
  have eDz : (updateDuration (pushLog s line) line).duration = 0 →
      s.duration = 0 := fun x =>
    hps ▸ updateDuration_duration_zero (pushLog s line) line x
  have hDnn : 0 ≤ (updateDuration (pushLog s line) line).duration := by
    rcases eD with h | h
    · rw [h]; exact hdur
    · exact h.2
  have eTd : (updateTime (updateDuration (pushLog s line) line) line).duration =
      (updateDuration (pushLog s line) line).duration :=
    (updateTime_fields _ line).1
  unfold processLine
  cases ht : parsedTime line with
  | none =>
    rw [updateTime_none _ _ ht]
    constructor
    · refine ⟨by rw [e1]; exact hct, hDnn, by rw [e2]; exact hp0,
        by rw [e2]; exact hp100, ?_, ?_⟩
      · intro h0
        rw [e2]
        exact hz (eDz h0)
      · intro hpos
        rw [e2, e1]
        rcases eD with h | h
        · rw [h] at hpos ⊢
          exact hf hpos
        · have hz0 : s.percentage = 0 := hz h.1
          rw [hz0]
          refine le_min (by norm_num) ?_
          have hn : (0 : ℚ) ≤ s.current_time /
              (updateDuration (pushLog s line) line).duration :=
            div_nonneg hct hDnn
          nlinarith
    · rw [e2]
  | some t =>
    by_cases hpos : 0 < (updateDuration (pushLog s line) line).duration
    · have ect := updateTime_some_current_time
        (updateDuration (pushLog s line) line) line t ht
      have epc := updateTime_some_pct_pos
        (updateDuration (pushLog s line) line) line t ht hpos
      rw [e1] at ect
      rw [e1] at epc
      have hctn : 0 ≤ max t s.current_time :=
        le_trans hct (le_max_right t s.current_time)
      have hformn : (0 : ℚ) ≤ max t s.current_time /
          (updateDuration (pushLog s line) line).duration * 100 := by
        have hn := div_nonneg hctn hDnn
        nlinarith
      constructor
      · refine ⟨by rw [ect]; exact hctn, by rw [eTd]; exact hDnn,
          by rw [epc]; exact le_min hformn (by norm_num),
          by rw [epc]; exact min_le_right _ _, ?_, ?_⟩
        · intro h0
          rw [eTd] at h0
          rw [h0] at hpos
          exact absurd hpos (lt_irrefl 0)
        · intro _
          rw [epc, ect, eTd, min_comm]
      · rw [epc]
        rcases eD with h | h
        · have hpos2 : 0 < s.duration := by rw [← h]; exact hpos
          have step1 : s.percentage ≤
              min 100 (s.current_time / s.duration * 100) := hf hpos2
          have step2 : min 100 (s.current_time / s.duration * 100) ≤
              min 100 (max t s.current_time / s.duration * 100) := by
            refine min_le_min (le_refl _) ?_
            have hd2 : s.current_time / s.duration ≤
                max t s.current_time / s.duration := by
              gcongr
              exact le_max_right t s.current_time
            nlinarith [hd2]
          rw [h, min_comm]
          exact le_trans step1 step2
        · have hz0 : s.percentage = 0 := hz h.1
          rw [hz0]
          exact le_min hformn (by norm_num)
    · have epc := updateTime_some_pct_nonpos
        (updateDuration (pushLog s line) line) line t ht hpos
      have ect := updateTime_some_current_time
        (updateDuration (pushLog s line) line) line t ht
      rw [e1] at ect
      have hzero : (updateDuration (pushLog s line) line).duration = 0 :=
        le_antisymm (not_lt.mp hpos) hDnn
      constructor
      · refine ⟨by rw [ect]; exact le_trans hct (le_max_right t s.current_time),
          by rw [eTd]; exact hDnn,
          by rw [epc, e2]; exact hp0,
          by rw [epc, e2]; exact hp100, ?_, ?_⟩
        · intro _
          rw [epc, e2]
          exact hz (eDz hzero)
        · intro hpos2
          rw [eTd, hzero] at hpos2
          exact absurd hpos2 (lt_irrefl 0)
      · rw [epc, e2]

/-- Invariant preservation and percentage monotonicity over a whole
line sequence. -/
theorem processLines_inv (ls : List String) :
    ∀ s : TaskState, ProgressInv s →
      ProgressInv (processLines s ls) ∧
        s.percentage ≤ (processLines s ls).percentage := by
  induction ls with
  | nil => exact fun s h => ⟨h, le_refl _⟩
  | cons l rest ih =>
    intro s h
    have h1 := processLine_inv s l h
    have h2 := ih (processLine s l) h1.1
    exact ⟨h2.1, le_trans h1.2 h2.2⟩

/-- Processing a concatenation is processing the pieces in order. -/
theorem processLines_append (s : TaskState) (a b : List String) :
    processLines s (a ++ b) = processLines (processLines s a) b := by
  simp [processLines, List.foldl_append]

/-- C4: across the stream loop, the recorded elapsed time is monotonically
non-decreasing over any processed line (a newly parsed value smaller than
the recorded one leaves it unchanged); whenever a line carries an
elapsed-time field and the known duration is nonzero the recorded
percentage equals `min(100, elapsed / duration * 100)`, and while the
duration is zero the percentage is left unchanged; consequently the
percentage is non-decreasing along any line sequence and never
exceeds 100. -/
theorem progress_parser_monotonicity (s : TaskState) (line : String)
    (ls : List String) (hInv : ProgressInv s) :
    s.current_time ≤ (processLine s line).current_time ∧
    (∀ t : ℚ, parsedTime line = some t → t ≤ s.current_time →
      (processLine s line).current_time = s.current_time) ∧
    (∀ t : ℚ, parsedTime line = some t → (processLine s line).duration ≠ 0 →
      (processLine s line).percentage =
        min 100 ((processLine s line).current_time /
          (processLine s line).duration * 100)) ∧
    ((processLine s line).duration = 0 →
      (processLine s line).percentage = s.percentage) ∧
    s.percentage ≤ (processLine s line).percentage ∧
    (∀ pre suf : List String, ls = pre ++ suf →
      (processLines s pre).percentage ≤ (processLines s ls).percentage) ∧
    (processLines s ls).percentage ≤ 100 := by
  have e1 : (updateDuration (pushLog s line) line).current_time =
      s.current_time := (updateDuration_fields (pushLog s line) line).1
  have e2 : (updateDuration (pushLog s line) line).percentage =
      s.percentage := (updateDuration_fields (pushLog s line) line).2.1
  have hDnn : 0 ≤ (updateDuration (pushLog s line) line).duration := by
    rcases updateDuration_duration (pushLog s line) line with h | h
    · rw [h]; exact hInv.2.1
    · exact h.2
  have eTd : (updateTime (updateDuration (pushLog s line) line) line).duration =
      (updateDuration (pushLog s line) line).duration :=
    (updateTime_fields _ line).1
  refine ⟨processLine_current_time_mono s line, ?_, ?_, ?_,
    (processLine_inv s line hInv).2, ?_, ?_⟩
  · intro t ht hle
    unfold processLine
    rw [updateTime_some_current_time _ _ t ht, e1]
    exact max_eq_right hle
  · intro t ht hne
    have hpos : 0 < (updateDuration (pushLog s line) line).duration := by
      unfold processLine at hne
      rw [eTd] at hne
      exact lt_of_le_of_ne hDnn (Ne.symm hne)
    unfold processLine
    rw [updateTime_some_pct_pos _ _ t ht hpos,
      updateTime_some_current_time _ _ t ht, eTd, min_comm]
  · intro h0
    unfold processLine at h0 ⊢
    rw [eTd] at h0
    cases ht : parsedTime line with
    | none => rw [updateTime_none _ _ ht, e2]
    | some t =>
      rw [updateTime_some_pct_nonpos _ _ t ht (by rw [h0]; exact lt_irrefl 0),
        e2]
  · intro pre suf hsplit
    subst hsplit
    rw [processLines_append]
    exact (processLines_inv suf (processLines s pre)
      (processLines_inv pre s hInv).1).2
  · exact ((processLines_inv ls s hInv).1).2.2.2.1

/-- C4 witness: the monotonicity and bound facts evaluated at the initial
task state on a concrete duration line followed by an elapsed-time
line. -/
theorem progress_parser_monotonicity_witness :
    ProgressInv initTask ∧
      initTask.current_time ≤
        (processLine initTask "out_time=00:00:03.00").current_time ∧
      (processLines initTask
        ["Duration: 00:00:10.00", "out_time=00:00:03.00"]).percentage ≤ 100 := by
  have hInv : ProgressInv initTask := by
    refine ⟨le_refl 0, le_refl 0, le_refl 0, by norm_num [initTask],
      fun _ => rfl, ?_⟩
    intro h
    exact absurd h (lt_irrefl 0)
  have h := progress_parser_monotonicity initTask "out_time=00:00:03.00"
    ["Duration: 00:00:10.00", "out_time=00:00:03.00"] hInv
  exact ⟨hInv, h.1, h.2.2.2.2.2.2⟩

/-- The state change of `cancelBody` never touches the control fields
other than status and the kill count. -/
theorem cancelBody_fields (t : TaskState) :
    (cancelBody t).pid = t.pid ∧ (cancelBody t).process = t.process ∧
      (cancelBody t).procOutstanding = t.procOutstanding ∧
      (cancelBody t).current_time = t.current_time ∧
      (cancelBody t).percentage = t.percentage ∧
      (cancelBody t).duration = t.duration := by
  unfold cancelBody
  split <;> simp

/-- One supervisor or cancellation step preserves the pid/liveness
correspondence and the emptiness of the stored handle. -/
theorem supStep_pid_inv (cfg : ConvConfig) (s : TaskState) (e : SupEvent)
    (h1 : s.pid.isSome = s.procOutstanding) (h2 : s.process = false) :
    (supStep cfg s e).pid.isSome = (supStep cfg s e).procOutstanding ∧
      (supStep cfg s e).process = false := by
  cases e with
  | streamLine line =>
    have hf := updateTime_fields
      (updateDuration (pushLog (supStep cfg s (.streamLine line)) line) line)
    have hp : (processLine s line).pid = s.pid := by
      unfold processLine
      rw [(updateTime_fields _ line).2.2.1,
        (updateDuration_fields _ line).2.2.2.1]
      rfl
    have hpr : (processLine s line).process = s.process := by
      unfold processLine
      rw [(updateTime_fields _ line).2.2.2.1,
        (updateDuration_fields _ line).2.2.2.2.1]
      rfl
    have ho : (processLine s line).procOutstanding = s.procOutstanding := by
      unfold processLine
      rw [(updateTime_fields _ line).2.2.2.2.1,
        (updateDuration_fields _ line).2.2.2.2.2.1]
      rfl
    show (processLine s line).pid.isSome = (processLine s line).procOutstanding ∧
      (processLine s line).process = false
    rw [hp, hpr, ho]
    exact ⟨h1, h2⟩
  | cancelRequest lockAcquired =>
    cases lockAcquired with
    | true =>
      have hb := cancelBody_fields s
      show (cancelBody s).pid.isSome = (cancelBody s).procOutstanding ∧
        (cancelBody s).process = false
      rw [hb.1, hb.2.1, hb.2.2.1]
      exact ⟨h1, h2⟩
    | false => exact ⟨h1, h2⟩
  | attemptStart attempt => exact ⟨h1, h2⟩
  | spawnFailRetry errMsg => exact ⟨h1, h2⟩
  | spawnFailFinal errMsg => exact ⟨h1, h2⟩
  | spawned procId => exact ⟨rfl, rfl⟩
  | exitSuccess => exact ⟨rfl, rfl⟩
  | exitFailure codeStr => exact ⟨rfl, rfl⟩
  | waitError e2 => exact ⟨rfl, rfl⟩
  | validationFailRetry problem => exact ⟨h1, h2⟩
  | validationFailFinal problem => exact ⟨h1, h2⟩
  | validationPass => exact ⟨h1, h2⟩

/-- The pid/liveness correspondence holds after any event sequence from a
state satisfying it. -/
theorem runSup_pid_inv (cfg : ConvConfig) (es : List SupEvent) :
    ∀ s : TaskState, s.pid.isSome = s.procOutstanding → s.process = false →
      (runSup cfg s es).pid.isSome = (runSup cfg s es).procOutstanding ∧
        (runSup cfg s es).process = false := by
  induction es with
  | nil => exact fun s h1 h2 => ⟨h1, h2⟩
  | cons e rest ih =>
    intro s h1 h2
    have h := supStep_pid_inv cfg s e h1 h2
    exact ih (supStep cfg s e) h.1 h.2

/-- C7 (amended): along every observable event sequence of a task's life,
`process_id` is `Some` exactly while an attempt's process has been spawned
and not yet reaped; `process_handle`, by contrast, is never observably
`Some` — the supervisor stores the child and immediately takes it back
within the same critical section (mod.rs lines 1113-1118), so cancellation
relies on the mirrored pid. -/
theorem pid_tracks_live_process (cfg : ConvConfig) (es : List SupEvent) :
    (runSup cfg initTask es).pid.isSome =
        (runSup cfg initTask es).procOutstanding ∧
      (runSup cfg initTask es).process = false :=
  runSup_pid_inv cfg es initTask rfl rfl

/-- Looking up an id right after writing it yields the written state,
provided the id was registered. -/
theorem lookupTask_updateTask_self (reg : Registry) (id : String)
    (t t0 : TaskState) (h : lookupTask reg id = some t0) :
    lookupTask (updateTask reg id t) id = some t := by
  induction reg with
  | nil => simp [lookupTask] at h
  | cons p rest ih =>
    obtain ⟨k, tv⟩ := p
    by_cases hk : k = id
    · simp [lookupTask, updateTask, hk]
    · simp only [lookupTask, updateTask, if_neg hk] at h ⊢
      exact ih h

/-- Writing one id leaves every other id's lookup unchanged. -/
theorem lookupTask_updateTask_ne (reg : Registry) (id id2 : String)
    (t : TaskState) (h : id ≠ id2) :
    lookupTask (updateTask reg id t) id2 = lookupTask reg id2 := by
  induction reg with
  | nil => rfl
  | cons p rest ih =>
    obtain ⟨k, tv⟩ := p
    by_cases hk : k = id
    · subst hk
      simp only [updateTask, if_pos rfl, lookupTask, if_neg h]
    · simp only [updateTask, if_neg hk, lookupTask]
      by_cases hk2 : k = id2
      · simp [hk2]
      · simp only [if_neg hk2]
        exact ih

/-- Writing back the exact state found behind an id is a no-op. -/
theorem updateTask_self (reg : Registry) (id : String) (t : TaskState)
    (h : lookupTask reg id = some t) : updateTask reg id t = reg := by
  induction reg with
  | nil => rfl
  | cons p rest ih =>
    obtain ⟨k, tv⟩ := p
    by_cases hk : k = id
    · simp only [lookupTask, if_pos hk] at h
      obtain rfl : tv = t := Option.some_inj.mp h
      simp [updateTask, hk]
    · simp only [lookupTask, if_neg hk] at h
      simp only [updateTask, if_neg hk]
      rw [ih h]

/-- Writing never changes the key list. -/
theorem updateTask_keys (reg : Registry) (id : String) (t : TaskState) :
    (updateTask reg id t).map Prod.fst = reg.map Prod.fst := by
  induction reg with
  | nil => rfl
  | cons p rest ih =>
    obtain ⟨k, tv⟩ := p
    by_cases hk : k = id
    · simp [updateTask, hk]
    · simp only [updateTask, if_neg hk, List.map_cons]
      rw [ih]

/-- The state `cancelBody` leaves behind is always terminal. -/
theorem cancelBody_terminal (t : TaskState) :
    isTerminalStatus (cancelBody t).status = true := by
  unfold cancelBody
  split
  · rename_i h
    exact h
  · rfl

/-- `cancelBody` is the identity on an already-terminal task. -/
theorem cancelBody_of_terminal (t : TaskState)
    (h : isTerminalStatus t.status = true) : cancelBody t = t := by
  unfold cancelBody
  exact if_pos h

/-- C8: `cancel_conversion` answers not-found exactly when the id is
absent from the registry; for a registered task it returns success; with
the lock acquired and a non-terminal status it transitions the task to
`Cancelled` and sends a kill signal whenever a live handle or pid is
recorded; with the lock contended, or with the task already terminal, the
registry is left unchanged while the call still succeeds. -/
theorem cancel_conversion_spec (reg : Registry) (id : String)
    (lockOk : Bool) :
    ((cancel_conversion reg id lockOk).2 = CancelResult.notFound ↔
      lookupTask reg id = none) ∧
    (∀ t : TaskState, lookupTask reg id = some t →
      (cancel_conversion reg id lockOk).2 = CancelResult.ok ∧
      (lockOk = false → (cancel_conversion reg id lockOk).1 = reg) ∧
      (lockOk = true → isTerminalStatus t.status = false →
        lookupTask (cancel_conversion reg id lockOk).1 id =
          some (cancelBody t) ∧
        (cancelBody t).status = ConversionStatus.Cancelled ∧
        ((t.process = true ∨ t.pid.isSome = true) →
          (cancelBody t).kills = t.kills + 1)) ∧
      (lockOk = true → isTerminalStatus t.status = true →
        (cancel_conversion reg id lockOk).1 = reg)) := by
  constructor
  · unfold cancel_conversion
    cases h : lookupTask reg id with
    | none => simp
    | some t =>
      cases lockOk <;> simp
  · intro t h
    refine ⟨?_, ?_, ?_, ?_⟩
    · unfold cancel_conversion
      rw [h]
      cases lockOk <;> rfl
    · intro hl
      subst hl
      unfold cancel_conversion
      rw [h]
      rfl
    · intro hl hnt
      subst hl
      unfold cancel_conversion
      rw [h]
      refine ⟨lookupTask_updateTask_self reg id (cancelBody t) t h, ?_, ?_⟩
      · simp [cancelBody, hnt]
      · intro hrec
        by_cases hp : t.process = true
        · simp [cancelBody, hnt, hp]
        · rcases hrec with h1 | h1
          · exact absurd h1 hp
          · simp [cancelBody, hnt, hp, h1]
    · intro hl hterm
      subst hl
      unfold cancel_conversion
      rw [h]
      show updateTask reg id (cancelBody t) = reg
      rw [cancelBody_of_terminal t hterm]
      exact updateTask_self reg id t h

/-- C8 witness: cancelling the registered running task `t1` with the lock
acquired succeeds, records the kill, and leaves the task `Cancelled`. -/
theorem cancel_conversion_spec_witness :
    (cancel_conversion runningReg "t1" true).2 = CancelResult.ok ∧
      lookupTask (cancel_conversion runningReg "t1" true).1 "t1" =
        some (cancelBody runningTask) ∧
      (cancelBody runningTask).status = ConversionStatus.Cancelled ∧
      (cancelBody runningTask).kills = runningTask.kills + 1 := by
  have h := (cancel_conversion_spec runningReg "t1" true).2 runningTask
    (by decide)
  have h3 := h.2.2.1 rfl (by decide)
  exact ⟨h.1, h3.1, h3.2.1, h3.2.2 (Or.inr (by decide))⟩

/-- C10 counterexample: when a task's lock is contended during both passes
of `cancel_all` (both `try_lock`s fail), the call silently skips it, so
after `cancel_all` returns the task is still `Running` with its live
process id recorded — refuting the unconditional claim. -/
theorem cancel_all_contended_counterexample :
    lookupTask (cancel_all runningReg (fun _ => false) (fun _ => false))
        "t1" = some runningTask ∧
      runningTask.status = ConversionStatus.Running ∧
      runningTask.pid.isSome = true := by
  decide

/-- A phase-3 cancel step on an id whose lock is acquired leaves that id
terminal (or unregistered). -/
theorem cancel_step_terminal (r : Registry) (id : String) :
    ∀ t : TaskState, lookupTask (cancel_conversion r id true).1 id = some t →
      isTerminalStatus t.status = true := by
  intro t h
  unfold cancel_conversion at h
  cases hl : lookupTask r id with
  | none =>
    rw [hl] at h
    simp only at h
    rw [hl] at h
    cases h
  | some t0 =>
    rw [hl] at h
    simp only [eq_self_iff_true, if_true] at h
    rw [lookupTask_updateTask_self r id (cancelBody t0) t0 hl] at h
    obtain rfl : cancelBody t0 = t := Option.some_inj.mp h
    exact cancelBody_terminal t0

/-- Any phase-3 cancel step preserves the terminality of a given id. -/
theorem cancel_step_preserves_terminal (r : Registry) (id id2 : String)
    (b : Bool)
    (hT : ∀ t : TaskState, lookupTask r id = some t →
      isTerminalStatus t.status = true) :
    ∀ t : TaskState, lookupTask (cancel_conversion r id2 b).1 id = some t →
      isTerminalStatus t.status = true := by
  intro t h
  unfold cancel_conversion at h
  cases hl : lookupTask r id2 with
  | none =>
    rw [hl] at h
    exact hT t h
  | some t2 =>
    rw [hl] at h
    cases b with
    | false => exact hT t h
    | true =>
      simp only [eq_self_iff_true, if_true] at h
      by_cases hid : id2 = id
      · subst hid
        rw [lookupTask_updateTask_self r id2 (cancelBody t2) t2 hl] at h
        obtain rfl : cancelBody t2 = t := Option.some_inj.mp h
        exact cancelBody_terminal t2
      · rw [lookupTask_updateTask_ne r id2 id (cancelBody t2) hid] at h
        exact hT t h

/-- Terminality of a given id survives a whole phase-3 fold. -/
theorem cancel_pass_preserves_terminal (lock2 : String → Bool)
    (ids : List String) :
    ∀ (r : Registry) (id : String),
      (∀ t : TaskState, lookupTask r id = some t →
        isTerminalStatus t.status = true) →
      ∀ t : TaskState,
        lookupTask
          (ids.foldl (fun r2 i => (cancel_conversion r2 i (lock2 i)).1) r)
          id = some t →
        isTerminalStatus t.status = true := by
  induction ids with
  | nil => exact fun r id hT => hT
  | cons i0 rest ih =>
    intro r id hT
    exact ih ((cancel_conversion r i0 (lock2 i0)).1) id
      (cancel_step_preserves_terminal r id i0 (lock2 i0) hT)

/-- After the phase-3 fold every id of the fold whose lock was acquired is
terminal. -/
theorem cancel_pass_terminal (lock2 : String → Bool) (ids : List String) :
    ∀ r : Registry, (∀ i ∈ ids, lock2 i = true) →
      ∀ id ∈ ids, ∀ t : TaskState,
        lookupTask
          (ids.foldl (fun r2 i => (cancel_conversion r2 i (lock2 i)).1) r)
          id = some t →
        isTerminalStatus t.status = true := by
  induction ids with
  | nil => intro r _ id hid; cases hid
  | cons i0 rest ih =>
    intro r hl id hid t ht
    rcases List.mem_cons.mp hid with rfl | hmem
    · have hlock : lock2 id = true := hl id (List.mem_cons_self id rest)
      have hstep : ∀ t2 : TaskState,
          lookupTask (cancel_conversion r id (lock2 id)).1 id = some t2 →
          isTerminalStatus t2.status = true := by
        rw [hlock]
        exact cancel_step_terminal r id
      exact cancel_pass_preserves_terminal lock2 rest
        ((cancel_conversion r id (lock2 id)).1) id hstep t ht
    · exact ih ((cancel_conversion r i0 (lock2 i0)).1)
        (fun i hi => hl i (List.mem_cons_of_mem i0 hi)) id hmem t ht

/-- `cancel_conversion` never changes the key list. -/
theorem cancel_conversion_keys (r : Registry) (id : String) (b : Bool) :
    ((cancel_conversion r id b).1).map Prod.fst = r.map Prod.fst := by
  unfold cancel_conversion
  cases hl : lookupTask r id with
  | none => rfl
  | some t =>
    cases b with
    | false => rfl
    | true =>
      simp only [eq_self_iff_true, if_true]
      exact updateTask_keys r id (cancelBody t)

/-- The phase-1 kill pass never changes the key list. -/
theorem cancelAllKillPass_keys (lock1 : String → Bool) (r : Registry)
    (id : String) :
    (cancelAllKillPass lock1 r id).map Prod.fst = r.map Prod.fst := by
  unfold cancelAllKillPass
  cases hl : lookupTask r id with
  | none => rfl
  | some t =>
    dsimp only
    by_cases h1 : lock1 id = true
    · rw [if_pos h1]
      by_cases h2 : t.pid.isSome = true
      · rw [if_pos h2]
        exact updateTask_keys r id _
      · rw [if_neg h2]
    · rw [if_neg h1]

/-- Folding either pass preserves the key list. -/
theorem killPass_fold_keys (lock1 : String → Bool) (ids : List String) :
    ∀ r : Registry,
      (ids.foldl (cancelAllKillPass lock1) r).map Prod.fst =
        r.map Prod.fst := by
  induction ids with
  | nil => exact fun r => rfl
  | cons i0 rest ih =>
    intro r
    rw [List.foldl_cons, ih, cancelAllKillPass_keys]

/-- The phase-3 fold preserves the key list. -/
theorem cancelPass_fold_keys (lock2 : String → Bool) (ids : List String) :
    ∀ r : Registry,
      (ids.foldl (fun r2 i => (cancel_conversion r2 i (lock2 i)).1)
        r).map Prod.fst = r.map Prod.fst := by
  induction ids with
  | nil => exact fun r => rfl
  | cons i0 rest ih =>
    intro r
    rw [List.foldl_cons, ih, cancel_conversion_keys]

/-- `cancel_all` never changes the key list. -/
theorem cancel_all_keys (reg : Registry) (lock1 lock2 : String → Bool) :
    (cancel_all reg lock1 lock2).map Prod.fst = reg.map Prod.fst := by
  unfold cancel_all
  rw [cancelPass_fold_keys, killPass_fold_keys]

/-- With unique keys, a registry entry is what lookup finds. -/
theorem lookupTask_of_mem (reg : Registry)
    (hnd : (reg.map Prod.fst).Nodup) (k : String) (t : TaskState)
    (h : (k, t) ∈ reg) : lookupTask reg k = some t := by
  induction reg with
  | nil => cases h
  | cons p rest ih =>
    obtain ⟨k0, t0⟩ := p
    rw [List.map_cons] at hnd
    obtain ⟨hnotin, hnd2⟩ := List.nodup_cons.mp hnd
    rcases List.mem_cons.mp h with heq | hmem
    · cases heq
      simp [lookupTask]
    · have hk0 : k0 ≠ k := by
        intro hkk
        subst hkk
        exact hnotin (List.mem_map.mpr ⟨(k0, t), hmem, rfl⟩)
      simp only [lookupTask, if_neg hk0]
      exact ih hnd2 hmem

/-- C10 (amended): provided no task's lock is contended during the final
per-task cancel pass, after `cancel_all` returns no registered task
remains `Running` with a live process id recorded (every registered task
is then terminal); a task whose lock is contended during that pass may be
skipped and remain `Running` (see the counterexample). -/
theorem cancel_all_no_running (reg : Registry) (lock1 lock2 : String → Bool)
    (hnd : (reg.map Prod.fst).Nodup)
    (hl : ∀ id ∈ reg.map Prod.fst, lock2 id = true) :
    ∀ p ∈ cancel_all reg lock1 lock2,
      ¬(p.2.status = ConversionStatus.Running ∧ p.2.pid.isSome = true) := by
  intro p hp hcontra
  obtain ⟨k, t⟩ := p
  have hkeys := cancel_all_keys reg lock1 lock2
  have hk : k ∈ reg.map Prod.fst := by
    rw [← hkeys]
    exact List.mem_map.mpr ⟨(k, t), hp, rfl⟩
  have hnd2 : ((cancel_all reg lock1 lock2).map Prod.fst).Nodup := by
    rw [hkeys]
    exact hnd
  have hlu : lookupTask (cancel_all reg lock1 lock2) k = some t :=
    lookupTask_of_mem _ hnd2 k t hp
  have hterm : isTerminalStatus t.status = true := by
    unfold cancel_all at hlu
    exact cancel_pass_terminal lock2 (reg.map Prod.fst) _ hl k hk t hlu
  rw [hcontra.1] at hterm
  exact absurd hterm (by decide)

/-- C10 witness: with both passes acquiring every lock, the single
running task of `runningReg` ends the `cancel_all` call `Cancelled` (with
the two kill signals recorded), and the no-running conclusion holds for
its registry entry. -/
theorem cancel_all_no_running_witness :
    ((("t1",
      ({ status := ConversionStatus.Cancelled, percentage := 0,
         current_time := 0, duration := 0, log := [], error_message := none,
         process := false, pid := some 5, procOutstanding := true,
         kills := 2 } : TaskState)) : String × TaskState) ∈
      cancel_all runningReg (fun _ => true) (fun _ => true)) ∧
    ¬((("t1",
      ({ status := ConversionStatus.Cancelled, percentage := 0,
         current_time := 0, duration := 0, log := [], error_message := none,
         process := false, pid := some 5, procOutstanding := true,
         kills := 2 } : TaskState)) : String × TaskState).2.status = ConversionStatus.Running ∧
      (("t1",
      ({ status := ConversionStatus.Cancelled, percentage := 0,
         current_time := 0, duration := 0, log := [], error_message := none,
         process := false, pid := some 5, procOutstanding := true,
         kills := 2 } : TaskState)) : String × TaskState).2.pid.isSome = true) := by
  refine ⟨by decide, ?_⟩
  exact cancel_all_no_running runningReg (fun _ => true) (fun _ => true)
    (by decide) (by decide) _ (by decide)

end Dreamcodec
